import Mathlib

/-!
# Verification of the LipidDyn numerical core (`LipidDyn/core.py`)

A shallow embedding of the order-parameter engine and the 2D density-grid
engine of `LipidDyn/core.py`, together with theorems settling the frozen
claims about the natural-language specification.

Conventions of the embedding:
* Python floats are idealised as exact rationals (`ℚ`); values that
  mathematically involve square roots or `acos`/`π` live in `ℝ`.
* Fallible Python code (statements that can raise) is embedded as
  `Except`-valued functions; the raised exception class is recorded in
  `PyErr` (or, for `calc_OP`, in the dedicated payload-carrying
  `BondLengthError`).
* `int(...)` truncation, `round(...)` banker's rounding, `str.split()`,
  `str.strip()`, numpy negative indexing and `np.insert` broadcasting are
  modelled by the `py*`/`np*` helpers below, each faithful to the host
  semantics on the values the program feeds them.
-/

set_option autoImplicit false

namespace LipidDyn

/-- Exception classes raised by the embedded code paths
(`UserWarning` is what `core.py` raises for arity problems in
`OrderParameter.__init__`; `RuntimeError` is what the — dead — empty-field
check would raise; the others are host-level exceptions). -/
inductive PyErr where
  | indexError
  | typeError
  | valueError
  | zeroDivisionError
  | runtimeError
  | userWarning
  deriving DecidableEq, Repr

/-- A Python value as far as `OrderParameter.__init__` cares: a string,
or some non-string object (modelled by an integer payload). -/
inductive PyVal where
  | str (s : String)
  | int (z : ℤ)
  deriving DecidableEq, Repr

/-- Python `int(q)` on a real-valued quantity: truncation toward zero. -/
def pyInt (q : ℚ) : ℤ :=
  if 0 ≤ q then ⌊q⌋ else -⌊-q⌋

/-- Python `round(q)` / numpy rounding: round half to even. -/
def pyRound (q : ℚ) : ℤ :=
  let f := ⌊q⌋
  let r := q - f
  if r < 1/2 then f
  else if 1/2 < r then f + 1
  else if Even f then f else f + 1

/-- `np.around(q, decimals=5)`: round half to even at 5 decimal places. -/
def around5 (q : ℚ) : ℚ :=
  (pyRound (q * 100000) : ℚ) / 100000

/-- Helper for `pySplit`: walk the characters, flushing the (reversed)
current token at each whitespace run. -/
def splitWsAux : List Char → List Char → List String
  | [], acc => if acc.isEmpty then [] else [String.mk acc.reverse]
  | c :: cs, acc =>
    if c.isWhitespace then
      if acc.isEmpty then splitWsAux cs []
      else String.mk acc.reverse :: splitWsAux cs []
    else splitWsAux cs (c :: acc)

/-- Python `line.split()`: split on runs of whitespace, no empty tokens. -/
def pySplit (s : String) : List String :=
  splitWsAux s.toList []

/-- Python `line.startswith("#")`. -/
def pyStartsWithHash (s : String) : Bool :=
  match s.toList with
  | [] => false
  | c :: _ => c = '#'

/-- Python falsiness of `field.strip()`: true iff the string is empty or
all whitespace. -/
def pyStripEmpty (s : String) : Bool :=
  s.toList.all Char.isWhitespace

/-- `Except.isOk` as a plain boolean observer. -/
def isOkE {ε α : Type} : Except ε α → Bool
  | .ok _ => true
  | .error _ => false

/-! ## `OrderParameter` (`core.py` lines 44–178) -/

/-- `bond_len_max = 1.5` (Å), `core.py` line 41. -/
def bond_len_max : ℚ := 3/2

/-- `bond_len_max_sq = bond_len_max**2`, `core.py` line 42. -/
def bond_len_max_sq : ℚ := bond_len_max ^ 2

/-- The attribute names of an `OrderParameter` instance, in insertion
order: these are the keys of `self.__dict__` at the point where
`__init__` runs its validation loop (`core.py` lines 75–89). -/
def opDictKeys : List String :=
  ["name", "resname", "atAname", "atBname", "avg", "means", "std", "stem", "traj"]

/-- `isinstance(field, str)` where `field` ranges over `self.__dict__`:
iterating a Python dict yields its *keys*, which are always `str`. -/
def pyIsStrKey (_ : String) : Bool := true

/-- The validation loop of `OrderParameter.__init__`
(`core.py` lines 89–96): `for field in self.__dict__: ...`.
It iterates the attribute-name keys, not the provided values. -/
def opInitCheck : Except PyErr Unit :=
  opDictKeys.forM fun k =>
    if ¬ pyIsStrKey k then .error .userWarning
    else if pyStripEmpty k then .error .runtimeError
    else .ok ()

/-- The record built by a successful `OrderParameter.__init__`. -/
structure OrderParameterDef where
  name : PyVal
  resname : PyVal
  atAname : PyVal
  atBname : PyVal
  avg : Option PyVal
  std : Option PyVal
  stem : Option PyVal
  deriving DecidableEq, Repr

/-- `OrderParameter.__init__(name, resname, atom_A_name, atom_B_name, *args)`
(`core.py` lines 59–109): set the four identity attributes and the result
placeholders, run the `__dict__` validation loop, then dispatch on the
number of extra positional arguments (0, 2 or 3 are accepted; any other
count raises `UserWarning`). -/
def OrderParameter.init (name resname atA atB : PyVal) (args : List PyVal) :
    Except PyErr OrderParameterDef :=
  let base : OrderParameterDef :=
    { name := name, resname := resname, atAname := atA, atBname := atB,
      avg := Option.none, std := Option.none, stem := Option.none }
  match opInitCheck with
  | .error e => .error e
  | .ok _ =>
    if args.length = 2 then
      .ok { base with avg := args.get? 0, std := args.get? 1 }
    else if args.length = 3 then
      .ok { base with avg := args.get? 0, std := args.get? 1, stem := args.get? 2 }
    else if args.length ≠ 0 then
      .error .userWarning
    else
      .ok base

/-- A 3D vector / position with exact-rational components. -/
structure Vec3 where
  x : ℚ
  y : ℚ
  z : ℚ
  deriving DecidableEq, Repr

/-- Componentwise difference `b.position - a.position`. -/
def Vec3.sub (b a : Vec3) : Vec3 :=
  ⟨b.x - a.x, b.y - a.y, b.z - a.z⟩

/-- An atom as seen by the order-parameter engine: name, residue id,
current-frame position. -/
structure OPAtom where
  name : String
  resid : ℤ
  pos : Vec3
  deriving DecidableEq, Repr

/-- Payload of the `UserWarning` raised by `calc_OP` for a suspiciously
long bond (`core.py` lines 121–127): both atom names, the residue id and
the measured distance `sqrt(d2)`. -/
structure BondLengthError where
  at1 : String
  at2 : String
  resnr : ℤ
  d : ℝ

/-- `vec = atoms[1].position - atoms[0].position` (`core.py` line 118). -/
def calcVec (atA atB : OPAtom) : Vec3 := Vec3.sub atB.pos atA.pos

/-- `d2 = np.square(vec).sum()` (`core.py` line 119). -/
def calcD2 (atA atB : OPAtom) : ℚ :=
  (calcVec atA atB).x ^ 2 + (calcVec atA atB).y ^ 2 + (calcVec atA atB).z ^ 2

/-- `OrderParameter.calc_OP(atoms)` (`core.py` lines 112–132):
`vec = atoms[1].position - atoms[0].position`, `d2 = |vec|²`;
raise on `d2 > bond_len_max_sq`, else `S = 0.5*(3*vec_z²/d2 - 1)`. -/
noncomputable def calc_OP (atA atB : OPAtom) : Except BondLengthError ℚ :=
  if calcD2 atA atB > bond_len_max_sq then
    .error ⟨atA.name, atB.name, atA.resid, Real.sqrt (calcD2 atA atB : ℝ)⟩
  else
    .ok (1/2 * (3 * ((calcVec atA atB).z ^ 2 / calcD2 atA atB) - 1))

/-- `math.copysign(1.0, x)` (for non-NaN `x`; `copysign(1, 0.0) = 1`). -/
noncomputable def copysign1 (x : ℝ) : ℝ := if x < 0 then -1 else 1

/-- `math.degrees`. -/
noncomputable def degreesOf (x : ℝ) : ℝ := x * 180 / Real.pi

/-- The `try/except` cosine-to-angle conversion at the end of
`calc_angle` (`core.py` lines 149–156): `math.acos` raises `ValueError`
exactly when `|cos| > 1`; the handler prints a diagnostic, clamps the
cosine to `±1` and retries.  The returned `Bool` records whether the
diagnostic/clamp path ran. -/
noncomputable def acosDegClamp (c : ℝ) : ℝ × Bool :=
  if |c| ≤ 1 then (degreesOf (Real.arccos c), false)
  else (degreesOf (Real.arccos (copysign1 c)), true)

/-- `OrderParameter.calc_angle(atoms, z_dim)` (`core.py` lines 135–156):
angle between the (leaflet-sign-corrected) bond vector and the z-axis,
in degrees, plus the clamp-diagnostic flag. -/
noncomputable def calc_angle (atA atB : OPAtom) (z_dim : ℝ) : ℝ × Bool :=
  let vec := Vec3.sub atB.pos atA.pos
  let d := Real.sqrt ((vec.x ^ 2 + vec.y ^ 2 + vec.z ^ 2 : ℚ) : ℝ)
  let cos := (vec.z : ℝ) / d
  let cos' := cos * copysign1 ((atA.pos.z : ℝ) - z_dim * (1/2))
  acosDegClamp cos'

/-! ## Statistics (`core.py` lines 158–178) -/

/-- `np.mean` of a 1-D array. -/
def npMean (l : List ℚ) : ℚ := l.sum / l.length

/-- `np.mean` of a 2-D array (all elements). -/
def npMean2d (t : List (List ℚ)) : ℚ := t.flatten.sum / t.flatten.length

/-- `np.mean(t, axis=0)`: column-wise means of a rectangular 2-D array
(the column count is taken from the first row, as numpy takes the shape). -/
def npMeanAxis0 (t : List (List ℚ)) : List ℚ :=
  (List.range (t.headD []).length).map fun j =>
    (t.map fun row => row.getD j 0).sum / t.length

/-- The (population) variance used by `np.std`: mean squared deviation. -/
def npVar (l : List ℚ) : ℚ :=
  (l.map fun x => (x - npMean l) ^ 2).sum / l.length

/-- `np.std`: population standard deviation (`ddof = 0`). -/
noncomputable def npStd (l : List ℚ) : ℝ := Real.sqrt (npVar l)

/-- `OrderParameter.get_avg_std_stem_OP` (`core.py` lines 169–178): from
the `[frame][residue]` series, return
`(np.mean(traj), means, np.std(means), np.std(means)/sqrt(len(means)))`
where `means = np.mean(traj, axis=0)`. -/
noncomputable def get_avg_std_stem_OP (traj : List (List ℚ)) :
    ℚ × List ℚ × ℝ × ℝ :=
  let means := npMeanAxis0 traj
  (npMean2d traj, means, npStd means, npStd means / Real.sqrt (means.length : ℝ))

/-! ## `parse_op_input` (`core.py` lines 246–264) -/

/-- `OrderedDict` assignment `d[k] = v`: replace in place if the key
exists, else append. -/
def updateOrdered (d : List (String × OrderParameterDef)) (k : String)
    (v : OrderParameterDef) : List (String × OrderParameterDef) :=
  if d.any (fun p => p.1 = k) then
    d.map fun p => if p.1 = k then (k, v) else p
  else
    d ++ [(k, v)]

/-- The loop body of `parse_op_input`: for each non-`#` line,
`items = line.split()`, then `ordPars[items[0]] = OrderParameter(*items)`.
Python evaluates the right-hand side first, so with fewer than four
tokens the call `OrderParameter(*items)` raises `TypeError` (missing
required positional arguments) before `items[0]` is ever indexed. -/
def parse_op_input_go (d : List (String × OrderParameterDef)) :
    List String → Except PyErr (List (String × OrderParameterDef))
  | [] => .ok d
  | line :: rest =>
    if pyStartsWithHash line then
      parse_op_input_go d rest
    else
      match pySplit line with
      | a :: b :: c :: e :: extra =>
        match OrderParameter.init (.str a) (.str b) (.str c) (.str e)
            (extra.map .str) with
        | .error err => .error err
        | .ok v => parse_op_input_go (updateOrdered d a v) rest
      | _ => .error .typeError

/-- `parse_op_input(def_file)` (`core.py` lines 246–264). -/
def parse_op_input (lines : List String) :
    Except PyErr (List (String × OrderParameterDef)) :=
  parse_op_input_go [] lines

/-! ## `Density` and `dmap_multiprocessing` (`core.py` lines 269–404) -/

/-- A 3×3 triclinic cell matrix (`ts.triclinic_dimensions`), Å. -/
structure Mat3 where
  a11 : ℚ
  a12 : ℚ
  a13 : ℚ
  a21 : ℚ
  a22 : ℚ
  a23 : ℚ
  a31 : ℚ
  a32 : ℚ
  a33 : ℚ
  deriving DecidableEq, Repr

/-- Elementwise scaling `M * c` (numpy broadcast). -/
def Mat3.scale (c : ℚ) (m : Mat3) : Mat3 :=
  ⟨c * m.a11, c * m.a12, c * m.a13,
   c * m.a21, c * m.a22, c * m.a23,
   c * m.a31, c * m.a32, c * m.a33⟩

/-- `np.linalg.det` of a 3×3 matrix (cofactor expansion). -/
def Mat3.det (m : Mat3) : ℚ :=
  m.a11 * (m.a22 * m.a33 - m.a23 * m.a32)
    - m.a12 * (m.a21 * m.a33 - m.a23 * m.a31)
    + m.a13 * (m.a21 * m.a32 - m.a22 * m.a31)

/-- One trajectory frame as the density engine sees it: the box X/Y
lengths (`ts.dimensions[0..1]`, Å), the triclinic cell matrix, and the
current-frame `(x, y)` positions of the selected atom group. -/
structure Frame where
  dimX : ℚ
  dimY : ℚ
  tri : Mat3
  atoms : List (ℚ × ℚ)
  deriving DecidableEq, Repr

/-- `bins = 0.02` (`core.py` line 288). -/
def bins : ℚ := 2/100

/-- Grid sizing in `Density.__init__` (`core.py` lines 291–292):
`int(round((dim*0.1)/bins))` (`round` already yields an int;
boxes have positive extents, so `toNat` is lossless there). -/
def densityN (dim : ℚ) : ℕ :=
  (pyRound ((dim * (1/10)) / bins)).toNat

/-- The X-fraction wraparound (`core.py` lines 324–327): subtract 1 if
`m1 ≥ 1`, then add 1 if (the updated) `m1 < 0`. -/
def wrapFracX (m1 : ℚ) : ℚ :=
  let m1' := if m1 ≥ 1 then m1 - 1 else m1
  if m1' < 0 then m1' + 1 else m1'

/-- The Y-fraction wraparound (`core.py` lines 329–332): subtract 1 if
`m2 ≥ 1`, then add 1 if `m1 < 0` — the lower-bound test reads the
(already wrapped) X fraction, not `m2`. -/
def wrapFracY (m1post m2 : ℚ) : ℚ :=
  let m2' := if m2 ≥ 1 then m2 - 1 else m2
  if m1post < 0 then m2' + 1 else m2'

/-- Numpy basic indexing into an axis of length `n`: negative indices
wrap once from the end; anything outside `[-n, n)` raises `IndexError`. -/
def npIdx (n : ℕ) (i : ℤ) : Except PyErr ℕ :=
  if 0 ≤ i ∧ i < (n : ℤ) then .ok i.toNat
  else if -(n : ℤ) ≤ i ∧ i < 0 then .ok (i + n).toNat
  else .error .indexError

/-- The cell hit by one atom in one frame (`core.py` lines 323–334):
fractional positions `(pos*0.1)/(dim*0.1)`, the two wraparound blocks,
then the row index `int(m1*n1)` (resolved first) and the column index
`int(m2*n2)`. -/
def atomCell (n1 n2 : ℕ) (f : Frame) (pos : ℚ × ℚ) : Except PyErr (ℕ × ℕ) :=
  let m1 := wrapFracX ((pos.1 * (1/10)) / (f.dimX * (1/10)))
  let m2 := wrapFracY m1 ((pos.2 * (1/10)) / (f.dimY * (1/10)))
  match npIdx n1 (pyInt (m1 * n1)) with
  | .error e => .error e
  | .ok i =>
    match npIdx n2 (pyInt (m2 * n2)) with
    | .error e => .error e
    | .ok j => .ok (i, j)

/-- `invcellvol = n1*n2 / det(ts.triclinic_dimensions*0.1)`
(`core.py` lines 316–317). -/
def invcellvol (n1 n2 : ℕ) (f : Frame) : ℚ :=
  ((n1 : ℚ) * (n2 : ℚ)) / Mat3.det (Mat3.scale (1/10) f.tri)

/-- The accumulation grid: cell `(i, j)` to its accumulated density. -/
abbrev Grid := ℕ → ℕ → ℚ

/-- `grid[i][j] += v`. -/
def bump (g : Grid) (c : ℕ × ℕ) (v : ℚ) : Grid :=
  fun a b => if a = c.1 ∧ b = c.2 then g a b + v else g a b

/-- The inner atom loop of `do2dgrid`: add `v` at each cell in turn. -/
def addCells (g : Grid) (v : ℚ) (cs : List (ℕ × ℕ)) : Grid :=
  cs.foldl (fun g' c => bump g' c v) g

/-- The cells hit by all the atoms of one frame; the first atom whose
index computation raises aborts the frame (the grid mutated so far is
discarded with the propagating exception, so batching the cell
computations is observationally equivalent). -/
def frameCells (n1 n2 : ℕ) (f : Frame) : Except PyErr (List (ℕ × ℕ)) :=
  f.atoms.mapM (atomCell n1 n2 f)

/-- The frame loop of `Density.do2dgrid` (`core.py` lines 314–334),
parameterised by the incoming grid. -/
def do2dgridGo (n1 n2 : ℕ) (g : Grid) : List Frame → Except PyErr Grid
  | [] => .ok g
  | f :: fs =>
    match frameCells n1 n2 f with
    | .error e => .error e
    | .ok cs => do2dgridGo n1 n2 (addCells g (invcellvol n1 n2 f) cs) fs

/-- `Density.do2dgrid(trajectory, l_grids)` (`core.py` lines 295–336):
start from `np.zeros((n1, n2))` and accumulate every frame of the given
(sub)trajectory; the resulting partial grid is appended to the shared
result list. -/
def do2dgrid (n1 n2 : ℕ) (frames : List Frame) : Except PyErr Grid :=
  do2dgridGo n1 n2 (fun _ _ => 0) frames

/-- `sum(list(final_grid))` (`core.py` line 402): elementwise sum of the
collected partial grids, starting from scalar `0` (numpy broadcast). -/
def sumGrids (gs : List Grid) : Grid := gs.foldl (· + ·) 0

/-- Materialise an `(n1, n2)` grid as a matrix (row-major, as numpy). -/
def gridToMat (n1 n2 : ℕ) (g : Grid) : List (List ℚ) :=
  (List.range n1).map fun i => (List.range n2).map fun j => g i j

/-- The column count numpy infers for a (rectangular) 2-D array. -/
def matWidth (g : List (List ℚ)) : ℕ := (g.headD []).length

/-- `np.insert(g, 0, vals, axis=0)`: prepend a row.  A 1-D `vals` must
broadcast to shape `(1, width)`: its length must be the width or 1;
otherwise numpy raises `ValueError`. -/
def npInsertRow (g : List (List ℚ)) (vals : List ℚ) :
    Except PyErr (List (List ℚ)) :=
  if vals.length = matWidth g then .ok (vals :: g)
  else if vals.length = 1 then
    .ok (List.replicate (matWidth g) (vals.headD 0) :: g)
  else .error .valueError

/-- `np.insert(g, 0, vals, axis=1)`: prepend a column.  A 1-D `vals`
must broadcast to shape `(rows,)`: its length must be the row count or
1; otherwise numpy raises `ValueError`. -/
def npInsertCol (g : List (List ℚ)) (vals : List ℚ) :
    Except PyErr (List (List ℚ)) :=
  if vals.length = g.length then .ok ((vals.zip g).map fun p => p.1 :: p.2)
  else if vals.length = 1 then .ok (g.map fun r => vals.headD 0 :: r)
  else .error .valueError

/-- `box1`, accumulated over the whole trajectory then divided by the
frame count (`core.py` lines 345–355): the run-averaged box X length in
the working unit. -/
def avgBoxX (frames : List Frame) : ℚ :=
  ((frames.map fun f => f.dimX * (1/10)).sum) / (frames.length : ℚ)

/-- `box2`, run-averaged box Y length (`core.py` lines 346–356). -/
def avgBoxY (frames : List Frame) : ℚ :=
  ((frames.map fun f => f.dimY * (1/10)).sum) / (frames.length : ℚ)

/-- `Density.normalization(final_grid)` (`core.py` lines 339–363):
average the box X/Y lengths over the whole trajectory, divide the grid
by the frame count, build the tick lists (both ranging over `range(n1)`,
as in the source), prepend `tick_x` as a row and `0 :: tick_y` as a
column, and round everything to 5 decimals.  An empty trajectory makes
`box1/len(...)` raise `ZeroDivisionError`. -/
def normalization (n1 n2 : ℕ) (frames : List Frame)
    (final_grid : List (List ℚ)) : Except PyErr (List (List ℚ)) :=
  let nf := frames.length
  if nf = 0 then .error .zeroDivisionError
  else
    let grid := final_grid.map (List.map (· / (nf : ℚ)))
    let tick_x := (List.range n1).map fun (i : ℕ) => ((i : ℚ) * avgBoxX frames) / (n1 : ℚ)
    let tick_y := (List.range n1).map fun (i : ℕ) => ((i : ℚ) * avgBoxY frames) / (n2 : ℚ)
    match npInsertRow grid tick_x with
    | .error e => .error e
    | .ok g1 =>
      match npInsertCol g1 (0 :: tick_y) with
      | .error e => .error e
      | .ok g2 => .ok (g2.map (List.map around5))

/-- The chunking step of `dmap_multiprocessing` (`core.py` lines
387–389): `int(len(traj)/ncore)` is the slice step; `range(0, n, 0)`
raises `ValueError`, and `n/0` raises `ZeroDivisionError` before that. -/
def dmapChunks {α : Type} (frames : List α) (ncore : ℕ) :
    Except PyErr (List (List α)) :=
  if ncore = 0 then .error .zeroDivisionError
  else
    let n := frames.length
    let s := (pyInt ((n : ℚ) / (ncore : ℚ))).toNat
    if s = 0 then .error .valueError
    else .ok ((List.range' 0 ((n + s - 1) / s) s).map
      fun x => (frames.drop x).take s)

/-- `dmap_multiprocessing(universe, selection, ncore)` (`core.py` lines
367–404): size the grid from frame 0 (`Density.__init__` indexes
`trajectory[0]`, so an empty trajectory raises `IndexError`), chunk the
frames, run `do2dgrid` once per chunk, sum the partial grids and
normalise. -/
def dmapMultiprocessing (frames : List Frame) (ncore : ℕ) :
    Except PyErr (List (List ℚ)) :=
  match frames with
  | [] => .error .indexError
  | f0 :: _ =>
    let n1 := densityN f0.dimX
    let n2 := densityN f0.dimY
    match dmapChunks frames ncore with
    | .error e => .error e
    | .ok chunks =>
      match chunks.mapM (do2dgrid n1 n2) with
      | .error e => .error e
      | .ok grids => normalization n1 n2 frames (gridToMat n1 n2 (sumGrids grids))

deriving instance DecidableEq for Except

/-! ## Claim C1 — density-grid wraparound -/

set_option maxRecDepth 8000 in
/-- **C1** (evaluation of the defect): in `do2dgrid`'s wraparound the
lower-bound correction for the Y fraction tests the (already wrapped) X
fraction instead of the Y fraction.  For a 100 Å × 100 Å box
(`densityN 100 = 500` bins per axis) and an atom at
`(x, y) = (50 Å, −31.3 Å)`: the fractions are `m1 = 0.5`, `m2 = −0.313`;
the code leaves `m2` negative (`wrapFracY 0.5 (−0.313) = −0.313`), bins
the atom at column `int(−0.313·500) = −156`, i.e. cell `(250, 344)` via
numpy negative indexing — whereas wrapping `m2` by its own sign (the
claimed independent wrap, exactly what `wrapFracX` performs on the X
axis) gives `0.687` and column `343`. -/
theorem claim_C1_wrap_bug_eval :
    densityN 100 = 500
    ∧ wrapFracY (1/2) (-313/1000) = -313/1000
    ∧ atomCell 500 500 ⟨100, 100, ⟨100,0,0,0,100,0,0,0,100⟩, []⟩ (50, -313/10)
        = .ok (250, 344)
    ∧ wrapFracX (-313/1000) = 687/1000
    ∧ npIdx 500 (pyInt ((687/1000 : ℚ) * 500)) = .ok 343 := by
  with_unfolding_all decide

/-! ## Claim C3 — dead validation in `OrderParameter.__init__` -/

/-- **C3** (evaluation of the defect): the validation loop iterates
`self.__dict__`, i.e. the attribute-name *keys* (all non-empty strings),
never the provided values, so it is a no-op: construction succeeds with
an empty-string name and with a non-string field, contrary to the
specified fatal configuration error. -/
theorem claim_C3_validation_dead :
    opInitCheck = .ok ()
    ∧ isOkE (OrderParameter.init (.str "") (.str "POPC") (.str "C1")
        (.str "H1") []) = true
    ∧ isOkE (OrderParameter.init (.int 5) (.str "")
        (.str "  ") (.str "H1") []) = true := by
  with_unfolding_all decide

/-! ## Claim C4 — `calc_OP` -/

/-- **C4** (counterexample): the claim asserts that the bond vector
`(0, 0, 2)` yields `S = 1.0`, but its squared length is `4 > 2.25 =
bond_len_max_sq`, so `calc_OP` raises the bond-length error instead of
returning a value. -/
theorem claim_C4_counterexample :
    calcD2 ⟨"C12", 1, ⟨0,0,0⟩⟩ ⟨"H12A", 1, ⟨0,0,2⟩⟩ = 4
    ∧ bond_len_max_sq = 9/4
    ∧ isOkE (calc_OP ⟨"C12", 1, ⟨0,0,0⟩⟩ ⟨"H12A", 1, ⟨0,0,2⟩⟩) = false := by
  with_unfolding_all decide

/-- **C4** (amended): for every atom pair, if `d2 > 2.25` then `calc_OP`
fails with a `BondLengthError` carrying the two atom names, the residue
id and the measured distance (a hard stop, not a skip); otherwise it
returns `S = 0.5*(3*vec_z²/d2 − 1)`; the vector `(0, 0, 1)` yields
`S = 1.0` and `(1, 0, 0)` yields `S = −0.5`, while `(0, 0, 2)` (squared
length 4) fails with the bond-length error. -/
theorem claim_C4_amended (atA atB : OPAtom) :
    (calcD2 atA atB > bond_len_max_sq →
      calc_OP atA atB
        = .error ⟨atA.name, atB.name, atA.resid, Real.sqrt ((calcD2 atA atB : ℚ) : ℝ)⟩)
    ∧ (calcD2 atA atB ≤ bond_len_max_sq →
      calc_OP atA atB
        = .ok (1/2 * (3 * ((calcVec atA atB).z ^ 2 / calcD2 atA atB) - 1)))
    ∧ calc_OP ⟨"C12", 1, ⟨0,0,0⟩⟩ ⟨"H12A", 1, ⟨0,0,1⟩⟩ = .ok 1
    ∧ calc_OP ⟨"C12", 1, ⟨0,0,0⟩⟩ ⟨"H12A", 1, ⟨1,0,0⟩⟩ = .ok (-(1/2))
    ∧ isOkE (calc_OP ⟨"C12", 1, ⟨0,0,0⟩⟩ ⟨"H12A", 1, ⟨0,0,2⟩⟩) = false := by
  refine ⟨fun h => ?_, fun h => ?_, ?_, ?_, ?_⟩
  · rw [calc_OP, if_pos h]
  · rw [calc_OP, if_neg (not_lt.mpr h)]
  · with_unfolding_all rfl
  · with_unfolding_all rfl
  · with_unfolding_all decide

/-- Witness for `claim_C4_amended`: the in-plane unit vector `(1,0,0)`
satisfies the short-bond hypothesis and yields `S = −0.5`. -/
theorem claim_C4_amended_witness :
    calcD2 ⟨"C12", 1, ⟨0,0,0⟩⟩ ⟨"H12A", 1, ⟨1,0,0⟩⟩ ≤ bond_len_max_sq
    ∧ calc_OP ⟨"C12", 1, ⟨0,0,0⟩⟩ ⟨"H12A", 1, ⟨1,0,0⟩⟩
      = .ok (1/2 * (3 * ((calcVec ⟨"C12", 1, ⟨0,0,0⟩⟩ ⟨"H12A", 1, ⟨1,0,0⟩⟩).z ^ 2
          / calcD2 ⟨"C12", 1, ⟨0,0,0⟩⟩ ⟨"H12A", 1, ⟨1,0,0⟩⟩) - 1)) :=
  ⟨by with_unfolding_all decide,
   (claim_C4_amended ⟨"C12", 1, ⟨0,0,0⟩⟩ ⟨"H12A", 1, ⟨1,0,0⟩⟩).2.1
     (by with_unfolding_all decide)⟩

/-! ## Claim C6 — cosine clamp in `calc_angle` -/

/-- **C6** (counterexample): at `cos = 1` exactly (`|cos| ≥ 1`),
`math.acos` succeeds, so the clamp path does not run and no diagnostic
is reported — the claim asserts the clamp is reported for every
`|cos| ≥ 1`. -/
theorem claim_C6_counterexample :
    (1 : ℝ) ≤ |(1 : ℝ)| ∧ (acosDegClamp 1).2 = false := by
  refine ⟨by norm_num, ?_⟩
  rw [acosDegClamp, if_pos (by norm_num)]

/-- **C6** (amended): for every cosine with `|cos| ≥ 1` the conversion
does not raise and returns `0°` for `cos ≥ 0` and `180°` for `cos < 0`;
the clamp is applied and reported as a (non-fatal) diagnostic exactly
when `|cos| > 1` — at `|cos| = 1` the inverse cosine succeeds directly
and no diagnostic is emitted. -/
theorem claim_C6_amended (c : ℝ) (h : 1 ≤ |c|) :
    ((0 ≤ c → (acosDegClamp c).1 = 0) ∧ (c < 0 → (acosDegClamp c).1 = 180))
    ∧ ((acosDegClamp c).2 = true ↔ 1 < |c|) := by
  rcases le_or_lt (|c|) 1 with h1 | h1
  · have habs : |c| = 1 := le_antisymm h1 h
    have hc : c = 1 ∨ c = -1 := abs_eq (by norm_num : (0:ℝ) ≤ 1) |>.mp habs
    rw [acosDegClamp, if_pos h1]
    refine ⟨⟨fun _ => ?_, fun hneg => ?_⟩, by simp [habs]⟩
    · rcases hc with rfl | rfl
      · simp [Real.arccos_one, degreesOf]
      · norm_num at *
    · rcases hc with rfl | rfl
      · norm_num at hneg
      · rw [Real.arccos_neg_one, degreesOf, mul_comm, mul_div_assoc,
          div_self Real.pi_ne_zero, mul_one]
  · rw [acosDegClamp, if_neg (not_le.mpr h1)]
    refine ⟨⟨fun hpos => ?_, fun hneg => ?_⟩, by simpa using h1⟩
    · rw [copysign1, if_neg (not_lt.mpr hpos), Real.arccos_one]
      simp [degreesOf]
    · rw [copysign1, if_pos hneg, Real.arccos_neg_one, degreesOf, mul_comm,
        mul_div_assoc, div_self Real.pi_ne_zero, mul_one]

/-- Witness for `claim_C6_amended`: an overshot cosine of `2` satisfies
the hypothesis, converts to `0°`, and does report the clamp. -/
theorem claim_C6_amended_witness :
    (1 : ℝ) ≤ |(2 : ℝ)| ∧ (acosDegClamp 2).1 = 0
    ∧ ((acosDegClamp 2).2 = true ↔ 1 < |(2 : ℝ)|) :=
  ⟨by norm_num, (claim_C6_amended 2 (by norm_num)).1.1 (by norm_num),
   (claim_C6_amended 2 (by norm_num)).2⟩

/-! ## Claim C7 — partial-grid merge -/

theorem bump_add (g h : Grid) (c : ℕ × ℕ) (v : ℚ) :
    bump (g + h) c v = g + bump h c v := by
  funext a b
  simp only [bump, Pi.add_apply]
  split
  · rw [add_assoc]
  · rfl

theorem addCells_split (v : ℚ) (cs : List (ℕ × ℕ)) (g : Grid) :
    addCells g v cs = g + addCells 0 v cs := by
  induction cs generalizing g with
  | nil =>
    show g = g + 0
    rw [add_zero]
  | cons c cs ih =>
    show addCells (bump g c v) v cs = g + addCells (bump 0 c v) v cs
    rw [ih (bump g c v), ih (bump 0 c v)]
    have hb : bump g c v = g + bump 0 c v := by
      have := bump_add g 0 c v
      rwa [add_zero] at this
    rw [hb, add_assoc]

theorem do2dgridGo_append (n1 n2 : ℕ) (a b : List Frame) (g : Grid) :
    do2dgridGo n1 n2 g (a ++ b)
      = (do2dgridGo n1 n2 g a).bind fun ga => do2dgridGo n1 n2 ga b := by
  induction a generalizing g with
  | nil => rfl
  | cons f fs ih =>
    show do2dgridGo n1 n2 g (f :: (fs ++ b)) = _
    cases hfc : frameCells n1 n2 f with
    | error e => simp only [do2dgridGo, hfc]; rfl
    | ok cs => simp only [do2dgridGo, hfc]; exact ih _

theorem do2dgridGo_shift (n1 n2 : ℕ) (fs : List Frame) (g : Grid) :
    do2dgridGo n1 n2 g fs = (do2dgrid n1 n2 fs).map fun h => g + h := by
  rw [do2dgrid]
  induction fs generalizing g with
  | nil =>
    show Except.ok g = Except.ok (g + fun _ _ => (0 : ℚ))
    rw [show (g + fun _ _ => (0 : ℚ)) = g + 0 from rfl, add_zero]
  | cons f fs ih =>
    cases hfc : frameCells n1 n2 f with
    | error e => simp only [do2dgridGo, hfc]; rfl
    | ok cs =>
      simp only [do2dgridGo, hfc]
      rw [ih (addCells g (invcellvol n1 n2 f) cs),
        ih (addCells (fun _ _ => 0) (invcellvol n1 n2 f) cs)]
      cases do2dgridGo n1 n2 (fun _ _ => 0) fs with
      | error e => rfl
      | ok h =>
        show Except.ok (addCells g (invcellvol n1 n2 f) cs + h)
          = Except.ok (g + (addCells (fun _ _ => (0:ℚ)) (invcellvol n1 n2 f) cs + h))
        rw [addCells_split (invcellvol n1 n2 f) cs g,
          show addCells (fun _ _ => (0:ℚ)) (invcellvol n1 n2 f) cs
            = addCells 0 (invcellvol n1 n2 f) cs from rfl,
          add_assoc]

theorem do2dgrid_append (n1 n2 : ℕ) (a b : List Frame) :
    do2dgrid n1 n2 (a ++ b)
      = (do2dgrid n1 n2 a).bind fun ga =>
          (do2dgrid n1 n2 b).map fun gb => ga + gb := by
  rw [do2dgrid, do2dgridGo_append]
  rw [show do2dgridGo n1 n2 (fun _ _ => 0) a = do2dgrid n1 n2 a from rfl]
  cases do2dgrid n1 n2 a with
  | error e => rfl
  | ok ga => exact do2dgridGo_shift n1 n2 b ga

theorem foldl_add_shift (l : List Grid) (a b : Grid) :
    l.foldl (· + ·) (a + b) = a + l.foldl (· + ·) b := by
  induction l generalizing b with
  | nil => rfl
  | cons x l ih =>
    simp only [List.foldl_cons]
    rw [add_assoc]
    exact ih (b + x)

theorem sumGrids_cons (g : Grid) (gs : List Grid) :
    sumGrids (g :: gs) = g + sumGrids gs := by
  rw [sumGrids, sumGrids, List.foldl_cons,
    show (0 : Grid) + g = g + 0 by rw [zero_add, add_zero], foldl_add_shift]

theorem sumGrids_eq_sum (gs : List Grid) : sumGrids gs = gs.sum := by
  induction gs with
  | nil => rfl
  | cons g gs ih => rw [sumGrids_cons, List.sum_cons, ih]

/-- **C7**: for every grid shape, every fixed frame list and every
partition of it into contiguous subranges (`parts.flatten` is the full
frame list), whenever the single-pass accumulation succeeds, running
`do2dgrid` independently on each part succeeds too and the elementwise
sum (`sumGrids`, the `sum(list(final_grid))` merge of
`dmap_multiprocessing`) of the partial grids equals the single-pass
grid; moreover the merge is order-independent: permuting the partial
grids leaves the sum unchanged (elementwise addition is associative and
commutative). -/
theorem claim_C7_parallel_merge (n1 n2 : ℕ) (parts : List (List Frame))
    (h : isOkE (do2dgrid n1 n2 parts.flatten) = true) :
    (parts.mapM (do2dgrid n1 n2)).map sumGrids = do2dgrid n1 n2 parts.flatten
    ∧ ∀ gs gs' : List Grid, gs.Perm gs' → sumGrids gs = sumGrids gs' := by
  refine ⟨?_, fun gs gs' hperm => by rw [sumGrids_eq_sum, sumGrids_eq_sum]; exact hperm.sum_eq⟩
  induction parts with
  | nil => rfl
  | cons p ps ih =>
    rw [List.flatten_cons] at h ⊢
    rw [do2dgrid_append] at h ⊢
    cases hp : do2dgrid n1 n2 p with
    | error e => rw [hp] at h; simp [Except.bind, isOkE] at h
    | ok gp =>
      rw [hp] at h
      cases hr : do2dgrid n1 n2 ps.flatten with
      | error e => rw [hr] at h; simp [Except.bind, Except.map, isOkE] at h
      | ok gr =>
        have ih' := ih (by rw [hr]; rfl)
        rw [hr] at ih'
        obtain ⟨gs, hgs⟩ : ∃ gs, ps.mapM (do2dgrid n1 n2) = .ok gs := by
          cases hm : ps.mapM (do2dgrid n1 n2) with
          | error e => rw [hm] at ih'; simp [Except.map] at ih'
          | ok gs => exact ⟨gs, rfl⟩
        rw [hgs] at ih'
        rw [List.mapM_cons, hp, hgs]
        simp only [Except.map, Except.bind] at ih' ⊢
        show Except.ok (sumGrids (gp :: gs)) = Except.ok (gp + gr)
        rw [sumGrids_cons]
        have : sumGrids gs = gr := by
          cases ih'
          rfl
        rw [this]

/-- Witness for `claim_C7_parallel_merge`: two one-frame parts over a
5×5 grid; the single pass succeeds and the summed partial grids equal
the single-pass grid. -/
theorem claim_C7_parallel_merge_witness :
    isOkE (do2dgrid 5 5
        ([[⟨10, 10, ⟨10,0,0,0,10,0,0,0,10⟩, [(3, 4)]⟩],
          [⟨10, 10, ⟨10,0,0,0,10,0,0,0,10⟩, [(7, 2)]⟩]] :
            List (List Frame)).flatten) = true
    ∧ (([[⟨10, 10, ⟨10,0,0,0,10,0,0,0,10⟩, [(3, 4)]⟩],
          [⟨10, 10, ⟨10,0,0,0,10,0,0,0,10⟩, [(7, 2)]⟩]] :
            List (List Frame)).mapM (do2dgrid 5 5)).map sumGrids
        = do2dgrid 5 5
            ([[⟨10, 10, ⟨10,0,0,0,10,0,0,0,10⟩, [(3, 4)]⟩],
              [⟨10, 10, ⟨10,0,0,0,10,0,0,0,10⟩, [(7, 2)]⟩]] :
                List (List Frame)).flatten :=
  ⟨by with_unfolding_all decide,
   (claim_C7_parallel_merge 5 5
      [[⟨10, 10, ⟨10,0,0,0,10,0,0,0,10⟩, [(3, 4)]⟩],
       [⟨10, 10, ⟨10,0,0,0,10,0,0,0,10⟩, [(7, 2)]⟩]]
      (by with_unfolding_all decide)).1⟩

/-! ## Claims C8 and C10 — frame chunking in `dmap_multiprocessing` -/

/-- `int(m/n)` on naturals is Euclidean division (the quotient is
nonnegative, so truncation is the floor). -/
theorem pyInt_natCast_div (m n : ℕ) :
    (pyInt ((m : ℚ) / (n : ℚ))).toNat = m / n := by
  rw [pyInt, if_pos (by positivity), Int.floor_toNat, Nat.floor_div_nat,
    Nat.floor_natCast]

/-- Recursive view of the slice decomposition `frames[x:x+s]` for
`x = 0, s, 2s, …`: peel `s` elements at a time. -/
def chunksRec {α : Type} (s : ℕ) : ℕ → List α → List (List α)
  | 0, _ => []
  | k + 1, l => l.take s :: chunksRec s k (l.drop s)

theorem range'_map_shift {α : Type} (s : ℕ) :
    ∀ (k : ℕ) (f : ℕ → α) (a : ℕ), (List.range' a k s).map f
      = (List.range' 0 k s).map fun x => f (a + x) := by
  intro k
  induction k with
  | zero => intro f a; rfl
  | succ k ih =>
    intro f a
    rw [List.range'_succ, List.range'_succ, List.map_cons, List.map_cons,
      ih f (a + s), ih (fun x => f (a + x)) (0 + s)]
    refine congrArg₂ _ (by rw [Nat.add_zero]) ?_
    refine List.map_congr_left fun x _ => ?_
    show f (a + s + x) = f (a + (0 + s + x))
    rw [Nat.zero_add, Nat.add_assoc]

theorem slices_eq_chunksRec {α : Type} (s : ℕ) :
    ∀ (k : ℕ) (l : List α),
      (List.range' 0 k s).map (fun x => (l.drop x).take s) = chunksRec s k l := by
  intro k
  induction k with
  | zero => intro l; rfl
  | succ k ih =>
    intro l
    rw [List.range'_succ, List.map_cons, List.drop_zero,
      range'_map_shift _ k _ (0 + s)]
    show l.take s :: _ = l.take s :: chunksRec s k (l.drop s)
    rw [← ih (l.drop s)]
    refine congrArg _ (List.map_congr_left fun x _ => ?_)
    show (l.drop (0 + s + x)).take s = ((l.drop s).drop x).take s
    rw [List.drop_drop, Nat.zero_add]

theorem chunksRec_flatten {α : Type} (s : ℕ) :
    ∀ (k : ℕ) (l : List α), l.length ≤ k * s → (chunksRec s k l).flatten = l := by
  intro k
  induction k with
  | zero =>
    intro l hl
    rw [Nat.zero_mul] at hl
    rw [List.eq_nil_of_length_eq_zero (Nat.le_zero.mp hl)]
    rfl
  | succ k ih =>
    intro l hl
    show (l.take s :: chunksRec s k (l.drop s)).flatten = l
    rw [Nat.succ_mul] at hl
    rw [List.flatten_cons, ih (l.drop s) (by rw [List.length_drop]; omega),
      List.take_append_drop]

theorem chunksRec_length {α : Type} (s : ℕ) :
    ∀ (k : ℕ) (l : List α), (chunksRec s k l).length = k := by
  intro k
  induction k with
  | zero => intro l; rfl
  | succ k ih => intro l; show _ + 1 = k + 1; rw [ih (l.drop s)]

theorem chunksRec_mem_bounds {α : Type} (s : ℕ) (hs : 0 < s) :
    ∀ (k : ℕ) (l : List α), (k - 1) * s < l.length →
      ∀ c ∈ chunksRec s k l, 0 < c.length ∧ c.length ≤ s := by
  intro k
  induction k with
  | zero => intro l _ c hc; exact absurd hc (List.not_mem_nil c)
  | succ k ih =>
    intro l hl c hc
    rw [show k + 1 - 1 = k from rfl] at hl
    rcases List.mem_cons.mp hc with rfl | hmem
    · constructor
      · rw [List.length_take]
        have : 0 < l.length := lt_of_le_of_lt (Nat.zero_le _) hl
        omega
      · rw [List.length_take]; omega
    · cases k with
      | zero => exact absurd hmem (List.not_mem_nil c)
      | succ k' =>
        refine ih (l.drop s) ?_ c hmem
        rw [List.length_drop]
        rw [Nat.succ_mul] at hl
        rw [show k' + 1 - 1 = k' from rfl]
        omega

/-- **C8** (counterexample): a 10-frame trajectory with `ncore = 4`
satisfies `1 ≤ ncore ≤ n`, but the slice step is `int(10/4) = 2` and
`range(0, 10, 2)` yields 5 chunks — not exactly `ncore = 4`. -/
theorem claim_C8_counterexample :
    ((1:ℕ) ≤ 4
      ∧ 4 ≤ (List.replicate 10
          (⟨100, 100, ⟨100,0,0,0,100,0,0,0,100⟩, []⟩ : Frame)).length)
    ∧ (dmapChunks (List.replicate 10
          (⟨100, 100, ⟨100,0,0,0,100,0,0,0,100⟩, []⟩ : Frame)) 4).map List.length
        = .ok 5
    ∧ (5 : ℕ) ≠ 4 := by
  with_unfolding_all decide

/-- The ceiling count `⌈n/s⌉ = (n + s - 1)/s` of step-`s` slices covers
at least `n` elements. -/
theorem le_ceil_mul (n s : ℕ) (hs : 0 < s) : n ≤ ((n + s - 1) / s) * s := by
  have hmod := Nat.div_add_mod (n + s - 1) s
  have hlt := Nat.mod_lt (n + s - 1) hs
  rw [Nat.mul_comm]
  omega

/-- **C8** (amended): for `1 ≤ ncore ≤ n`, the chunking succeeds and
partitions the frame list into `⌈n / ⌊n/ncore⌋⌉` disjoint, contiguous
chunks that concatenate back to the full list (one worker per chunk),
each of at most `⌊n/ncore⌋` frames and none empty; the chunk count is at
least `ncore` but can exceed it (e.g. 10 frames on 4 cores give 5
chunks), because the step is rounded down. -/
theorem claim_C8_amended (frames : List Frame) (ncore : ℕ)
    (h1 : 1 ≤ ncore) (h2 : ncore ≤ frames.length) :
    ∃ cs : List (List Frame),
      dmapChunks frames ncore = .ok cs
      ∧ cs.flatten = frames
      ∧ cs.length
          = (frames.length + frames.length / ncore - 1) / (frames.length / ncore)
      ∧ ncore ≤ cs.length
      ∧ ∀ c ∈ cs, 0 < c.length ∧ c.length ≤ frames.length / ncore := by
  have hnc : ncore ≠ 0 := by omega
  have hs : 0 < frames.length / ncore := (Nat.one_le_div_iff (by omega)).mpr h2
  have hmul : ncore * (frames.length / ncore) ≤ frames.length := by
    rw [Nat.mul_comm]
    exact Nat.div_mul_le_self frames.length ncore
  have hk : ncore
      ≤ (frames.length + frames.length / ncore - 1) / (frames.length / ncore) := by
    rw [Nat.le_div_iff_mul_le hs]
    omega
  refine ⟨(List.range' 0
      ((frames.length + frames.length / ncore - 1) / (frames.length / ncore))
      (frames.length / ncore)).map
        (fun x => (frames.drop x).take (frames.length / ncore)), ?_, ?_, ?_, ?_, ?_⟩
  · have hstep : (pyInt ((frames.length : ℚ) / (ncore : ℚ))).toNat
        = frames.length / ncore := pyInt_natCast_div frames.length ncore
    rw [dmapChunks, if_neg hnc]
    simp only [hstep]
    rw [if_neg (by omega)]
  · rw [slices_eq_chunksRec]
    exact chunksRec_flatten _ _ _ (le_ceil_mul frames.length _ hs)
  · rw [List.length_map, List.length_range']
  · rw [List.length_map, List.length_range']
    exact hk
  · rw [slices_eq_chunksRec]
    refine chunksRec_mem_bounds _ hs _ _ ?_
    have hdm : ((frames.length + frames.length / ncore - 1)
          / (frames.length / ncore)) * (frames.length / ncore)
        ≤ frames.length + frames.length / ncore - 1 :=
      Nat.div_mul_le_self _ _
    rw [Nat.sub_one_mul]
    omega

/-- Witness for `claim_C8_amended`: 5 frames on 2 cores (step 2) give
the 3-chunk partition `[2, 2, 1]` covering all frames. -/
theorem claim_C8_amended_witness :
    (1:ℕ) ≤ 2
    ∧ 2 ≤ (List.replicate 5
        (⟨100, 100, ⟨100,0,0,0,100,0,0,0,100⟩, []⟩ : Frame)).length
    ∧ ∃ cs : List (List Frame),
      dmapChunks (List.replicate 5
          (⟨100, 100, ⟨100,0,0,0,100,0,0,0,100⟩, []⟩ : Frame)) 2 = .ok cs
      ∧ cs.flatten = List.replicate 5
          (⟨100, 100, ⟨100,0,0,0,100,0,0,0,100⟩, []⟩ : Frame)
      ∧ cs.length = ((List.replicate 5
            (⟨100, 100, ⟨100,0,0,0,100,0,0,0,100⟩, []⟩ : Frame)).length
          + (List.replicate 5
            (⟨100, 100, ⟨100,0,0,0,100,0,0,0,100⟩, []⟩ : Frame)).length / 2 - 1)
          / ((List.replicate 5
            (⟨100, 100, ⟨100,0,0,0,100,0,0,0,100⟩, []⟩ : Frame)).length / 2)
      ∧ 2 ≤ cs.length
      ∧ ∀ c ∈ cs, 0 < c.length ∧ c.length ≤ (List.replicate 5
          (⟨100, 100, ⟨100,0,0,0,100,0,0,0,100⟩, []⟩ : Frame)).length / 2 :=
  ⟨by decide, by simp,
   claim_C8_amended
     (List.replicate 5 (⟨100, 100, ⟨100,0,0,0,100,0,0,0,100⟩, []⟩ : Frame)) 2
     (by decide) (by simp)⟩

/-- **C10**: for a nonempty trajectory of `n` frames and any configured
core count `ncore > n`, the slice step `int(n/ncore)` is zero, so
`range(0, n, 0)` raises `ValueError` while the chunk list is being
built — before any worker is spawned, so no partial grid is produced
and `dmap_multiprocessing` propagates the `ValueError`. -/
theorem claim_C10_zero_step (frames : List Frame) (ncore : ℕ)
    (h0 : frames ≠ []) (h : frames.length < ncore) :
    dmapMultiprocessing frames ncore = .error .valueError := by
  have hchunks : dmapChunks frames ncore
      = (.error .valueError : Except PyErr (List (List Frame))) := by
    rw [dmapChunks, if_neg (by omega : ¬ ncore = 0)]
    have hz : (pyInt ((frames.length : ℚ) / (ncore : ℚ))).toNat = 0 := by
      rw [pyInt_natCast_div]
      exact Nat.div_eq_of_lt h
    simp [hz]
  cases frames with
  | nil => exact absurd rfl h0
  | cons f0 rest =>
    simp only [dmapMultiprocessing, hchunks]

/-- Witness for `claim_C10_zero_step`: a single-frame trajectory with
`ncore = 2` hits the zero-step `ValueError`. -/
theorem claim_C10_zero_step_witness :
    ([(⟨100, 100, ⟨100,0,0,0,100,0,0,0,100⟩, [(5, 5)]⟩ : Frame)] ≠ [])
    ∧ dmapMultiprocessing
        [(⟨100, 100, ⟨100,0,0,0,100,0,0,0,100⟩, [(5, 5)]⟩ : Frame)] 2
      = .error .valueError :=
  ⟨by simp,
   claim_C10_zero_step
     [(⟨100, 100, ⟨100,0,0,0,100,0,0,0,100⟩, [(5, 5)]⟩ : Frame)] 2
     (by simp) (by simp)⟩

/-! ## Claim C9 — blank lines in `parse_op_input` -/

theorem parse_go_append (pre rest : List String) :
    ∀ d, parse_op_input_go d (pre ++ rest)
      = (parse_op_input_go d pre).bind fun d' => parse_op_input_go d' rest := by
  induction pre with
  | nil => intro d; rfl
  | cons line pre ih =>
    intro d
    show parse_op_input_go d (line :: (pre ++ rest)) = _
    by_cases hc : pyStartsWithHash line = true
    · simp only [parse_op_input_go, hc, if_true]
      exact ih d
    · simp only [parse_op_input_go, hc, Bool.false_eq_true, if_false]
      split
      · split
        · rfl
        · exact ih _
      · rfl

/-- **C9** (counterexample): on a blank non-comment line, Python
evaluates the right-hand side `OrderParameter(*items)` before the
subscript `items[0]`, and calling the constructor with zero positional
arguments raises `TypeError` (missing required arguments) — not the
`IndexError` the claim asserts; the line is still not skipped and not a
definition-format error. -/
theorem claim_C9_counterexample :
    parse_op_input ["   "] = .error .typeError
    ∧ parse_op_input ["   "] ≠ .error .indexError := by
  with_unfolding_all decide

/-- **C9** (amended): for every input line sequence whose lines before
the first blank (no-token) non-comment line all parse successfully,
`parse_op_input` raises a `TypeError` from calling the constructor with
no positional arguments (the assignment's right-hand side is evaluated
before `items[0]` is indexed), rather than skipping the line or raising
a definition-format error; blank non-comment lines are not tolerated. -/
theorem claim_C9_amended (pre post : List String) (b : String)
    (hok : isOkE (parse_op_input pre) = true)
    (hsplit : pySplit b = []) (hcomment : pyStartsWithHash b = false) :
    parse_op_input (pre ++ b :: post) = .error .typeError := by
  obtain ⟨d', hd'⟩ : ∃ d', parse_op_input_go [] pre = .ok d' := by
    cases hcase : parse_op_input_go [] pre with
    | ok d' => exact ⟨d', rfl⟩
    | error e =>
      rw [parse_op_input, hcase] at hok
      exact absurd hok (by simp [isOkE])
  rw [parse_op_input, parse_go_append, hd']
  show parse_op_input_go d' (b :: post) = .error .typeError
  simp [parse_op_input_go, hcomment, hsplit]

/-- Witness for `claim_C9_amended`: one well-formed definition line
followed by a whitespace-only line. -/
theorem claim_C9_amended_witness :
    isOkE (parse_op_input ["beta1 POPC C12 H12A"]) = true
    ∧ pySplit " " = []
    ∧ pyStartsWithHash " " = false
    ∧ parse_op_input (["beta1 POPC C12 H12A"] ++ " " :: []) = .error .typeError :=
  ⟨by with_unfolding_all decide, by with_unfolding_all decide,
   by with_unfolding_all decide,
   claim_C9_amended ["beta1 POPC C12 H12A"] [] " "
     (by with_unfolding_all decide) (by with_unfolding_all decide)
     (by with_unfolding_all decide)⟩

/-! ## Claim C5 — `get_avg_std_stem_OP` -/

theorem flatten_length_rect (t : List (List ℚ)) (R : ℕ)
    (hrect : ∀ row ∈ t, row.length = R) : t.flatten.length = t.length * R := by
  induction t with
  | nil => simp
  | cons r t ih =>
    rw [List.flatten_cons, List.length_append, List.length_cons,
      ih (fun row hm => hrect row (List.mem_cons_of_mem r hm)),
      hrect r (List.mem_cons_self r t), Nat.succ_mul, Nat.add_comm]

theorem npMeanAxis0_length (t : List (List ℚ)) (R : ℕ) (hne : t ≠ [])
    (hrect : ∀ row ∈ t, row.length = R) : (npMeanAxis0 t).length = R := by
  rw [npMeanAxis0, List.length_map, List.length_range]
  cases t with
  | nil => exact absurd rfl hne
  | cons r t => exact hrect r (List.mem_cons_self r t)

/-- **C5**: for every completed rectangular `[frame][residue]` series
(`R` residues per frame), the reduction returns: the grand mean over
all frame×residue values; per-residue means across frames (entry `j` is
the mean over frames of residue `j`'s value); the population standard
deviation of those per-residue means (squared deviations averaged over
`R`, not `R − 1`, then a square root); and that std divided by the
square root of the residue count. -/
theorem claim_C5_reduction (traj : List (List ℚ)) (R : ℕ)
    (hne : traj ≠ []) (_hR : 0 < R) (hrect : ∀ row ∈ traj, row.length = R) :
    (get_avg_std_stem_OP traj).1
        = traj.flatten.sum / ((traj.length : ℚ) * (R : ℚ))
    ∧ (get_avg_std_stem_OP traj).2.1.length = R
    ∧ (∀ j, j < R → (get_avg_std_stem_OP traj).2.1.getD j 0
        = (traj.map fun row => row.getD j 0).sum / (traj.length : ℚ))
    ∧ (get_avg_std_stem_OP traj).2.2.1
        = Real.sqrt (((((get_avg_std_stem_OP traj).2.1.map
            fun m => (m - npMean ((get_avg_std_stem_OP traj).2.1)) ^ 2).sum)
              / (R : ℚ) : ℚ))
    ∧ (get_avg_std_stem_OP traj).2.2.2
        = (get_avg_std_stem_OP traj).2.2.1 / Real.sqrt (R : ℝ) := by
  have hlen : (npMeanAxis0 traj).length = R := npMeanAxis0_length traj R hne hrect
  refine ⟨?_, hlen, ?_, ?_, ?_⟩
  · show npMean2d traj = _
    rw [npMean2d, flatten_length_rect traj R hrect]
    push_cast
    rfl
  · intro j hj
    show (npMeanAxis0 traj).getD j 0 = _
    rw [npMeanAxis0]
    have hhead : (traj.headD []).length = R := by
      cases traj with
      | nil => exact absurd rfl hne
      | cons r t => exact hrect r (List.mem_cons_self r t)
    rw [hhead, List.getD_eq_getElem?_getD, List.getElem?_map, List.getElem?_range hj]
    rfl
  · show npStd (npMeanAxis0 traj)
        = Real.sqrt ((((npMeanAxis0 traj).map
            fun m => (m - npMean (npMeanAxis0 traj)) ^ 2).sum / (R : ℚ) : ℚ))
    rw [npStd, npVar, hlen]
  · show npStd (npMeanAxis0 traj) / Real.sqrt (((npMeanAxis0 traj).length : ℕ) : ℝ)
      = npStd (npMeanAxis0 traj) / Real.sqrt ((R : ℕ) : ℝ)
    rw [hlen]

/-- Witness for `claim_C5_reduction`: the 2-frame, 2-residue series
`[[1, 2], [3, 4]]`. -/
theorem claim_C5_reduction_witness :
    (get_avg_std_stem_OP [[(1:ℚ), 2], [3, 4]]).1
        = ([[(1:ℚ), 2], [3, 4]] : List (List ℚ)).flatten.sum
          / ((([[(1:ℚ), 2], [3, 4]] : List (List ℚ)).length : ℚ) * ((2:ℕ) : ℚ))
    ∧ (get_avg_std_stem_OP [[(1:ℚ), 2], [3, 4]]).2.1.length = 2
    ∧ (∀ j, j < 2 → (get_avg_std_stem_OP [[(1:ℚ), 2], [3, 4]]).2.1.getD j 0
        = (([[(1:ℚ), 2], [3, 4]] : List (List ℚ)).map fun row => row.getD j 0).sum
          / (([[(1:ℚ), 2], [3, 4]] : List (List ℚ)).length : ℚ))
    ∧ (get_avg_std_stem_OP [[(1:ℚ), 2], [3, 4]]).2.2.1
        = Real.sqrt (((((get_avg_std_stem_OP [[(1:ℚ), 2], [3, 4]]).2.1.map
            fun m => (m - npMean ((get_avg_std_stem_OP [[(1:ℚ), 2], [3, 4]]).2.1)) ^ 2).sum)
              / ((2:ℕ) : ℚ) : ℚ))
    ∧ (get_avg_std_stem_OP [[(1:ℚ), 2], [3, 4]]).2.2.2
        = (get_avg_std_stem_OP [[(1:ℚ), 2], [3, 4]]).2.2.1 / Real.sqrt ((2:ℕ) : ℝ) :=
  claim_C5_reduction [[1, 2], [3, 4]] 2 (by simp) (by decide)
    (by with_unfolding_all decide)

/-! ## Claim C2 — `normalization` -/

/-- **C2** (counterexample): with `n1 = 2 ≠ 3 = n2` (an accumulated grid
of shape `(2, 3)`), `np.insert` cannot broadcast the 2-entry `tick_x`
into a leading row of width 3, so `normalization` raises `ValueError`
instead of producing the claimed `(n1+1) × (n2+1)` grid. -/
theorem claim_C2_counterexample :
    (2 : ℕ) ≠ 3
    ∧ normalization 2 3 [⟨100, 100, ⟨100,0,0,0,100,0,0,0,100⟩, []⟩]
        [[0,0,0],[0,0,0]] = .error .valueError := by
  with_unfolding_all decide

/-- **C2** (amended): for square grids (`n1 = n2 = n`), `normalization`
divides each cell by the frame count, prepends the tick row
`tick_x[i] = i·avg_box_x/n1` (one entry per `i < n1`) and a tick column
with a leading `0` whose remaining entries are `tick_y[j] =
j·avg_box_y/n2` for `j < n1` (the code iterates `range(n1)`, which here
coincides with `range(n2)`), yielding an `(n1+1) × (n2+1)` grid with
every value rounded to 5 decimals.  The original claim's "including
when `n1 ≠ n2`" fails instead: the `n1`-entry `tick_x` must broadcast
into a row of width `n2`, which needs `n1 = n2` or `n1 = 1`, so e.g.
the 2 × 3 instance above raises `ValueError` (while at `n1 = 1` a grid
is produced whose broadcast tick row repeats the single entry `0`,
again not the claimed tick values). -/
theorem claim_C2_amended (n : ℕ) (frames : List Frame) (G : List (List ℚ))
    (hn : 0 < n) (hf : frames ≠ []) (hlen : G.length = n)
    (hrect : ∀ r ∈ G, r.length = n) :
    ∃ M : List (List ℚ),
      normalization n n frames G = .ok M
      ∧ M = ((0 :: (List.range n).map fun (i : ℕ) => ((i : ℚ) * avgBoxX frames) / (n : ℚ))
          :: ((((List.range n).map fun (i : ℕ) => ((i : ℚ) * avgBoxY frames) / (n : ℚ)).zip
              (G.map (List.map fun q => q / (frames.length : ℚ)))).map
                fun p => p.1 :: p.2)).map (List.map around5)
      ∧ M.length = n + 1
      ∧ ∀ r ∈ M, r.length = n + 1 := by
  have hnf : (frames.length = 0) = False :=
    eq_false fun hc => hf (List.eq_nil_of_length_eq_zero hc)
  have hw : matWidth (G.map (List.map fun q => q / (frames.length : ℚ))) = n := by
    cases G with
    | nil => exact absurd hlen (by intro hc; simp at hc; omega)
    | cons r G' =>
      show (List.map (fun q => q / ((frames.length : ℕ) : ℚ)) r).length = n
      rw [List.length_map]
      exact hrect r (List.mem_cons_self r G')
  have hrow : npInsertRow (G.map (List.map fun q => q / (frames.length : ℚ)))
      ((List.range n).map fun (i : ℕ) => ((i : ℚ) * avgBoxX frames) / (n : ℚ))
      = .ok (((List.range n).map fun (i : ℕ) => ((i : ℚ) * avgBoxX frames) / (n : ℚ))
          :: G.map (List.map fun q => q / (frames.length : ℚ))) := by
    rw [npInsertRow, if_pos]
    rw [List.length_map, List.length_range, hw]
  have hcol : npInsertCol
      (((List.range n).map fun (i : ℕ) => ((i : ℚ) * avgBoxX frames) / (n : ℚ))
        :: G.map (List.map fun q => q / (frames.length : ℚ)))
      (0 :: (List.range n).map fun (i : ℕ) => ((i : ℚ) * avgBoxY frames) / (n : ℚ))
      = .ok (((0 :: (List.range n).map fun (i : ℕ) => ((i : ℚ) * avgBoxX frames) / (n : ℚ))
          :: ((((List.range n).map fun (i : ℕ) => ((i : ℚ) * avgBoxY frames) / (n : ℚ)).zip
              (G.map (List.map fun q => q / (frames.length : ℚ)))).map
                fun p => p.1 :: p.2))) := by
    rw [npInsertCol, if_pos]
    · rfl
    · simp [hlen]
  refine ⟨_, ?_, rfl, ?_, ?_⟩
  · simp only [normalization, hnf, if_false, hrow, hcol]
  · simp [List.length_zip, hlen]
  · intro r hr
    rw [List.mem_map] at hr
    obtain ⟨r', hr', rfl⟩ := hr
    rw [List.length_map]
    rcases List.mem_cons.mp hr' with rfl | hmem
    · simp
    · rw [List.mem_map] at hmem
      obtain ⟨p, hp, rfl⟩ := hmem
      rw [List.length_cons]
      have hzip := List.of_mem_zip hp
      obtain ⟨row, hrow', hro⟩ := List.mem_map.mp hzip.2
      rw [← hro, List.length_map, hrect row hrow']

/-- Witness for `claim_C2_amended`: a 2×2 grid, one 20 Å × 20 Å frame. -/
theorem claim_C2_amended_witness :
    ∃ M : List (List ℚ),
      normalization 2 2 [⟨20, 20, ⟨20,0,0,0,20,0,0,0,20⟩, []⟩]
          [[(1:ℚ), 2], [3, 4]] = .ok M
      ∧ M = ((0 :: (List.range 2).map fun (i : ℕ) =>
              ((i : ℚ) * avgBoxX [⟨20, 20, ⟨20,0,0,0,20,0,0,0,20⟩, []⟩]) / ((2:ℕ) : ℚ))
          :: ((((List.range 2).map fun (i : ℕ) =>
              ((i : ℚ) * avgBoxY [⟨20, 20, ⟨20,0,0,0,20,0,0,0,20⟩, []⟩]) / ((2:ℕ) : ℚ)).zip
              (([[(1:ℚ), 2], [3, 4]] : List (List ℚ)).map
                (List.map fun q => q / (([⟨20, 20, ⟨20,0,0,0,20,0,0,0,20⟩, []⟩] :
                  List Frame).length : ℚ)))).map
                fun p => p.1 :: p.2)).map (List.map around5)
      ∧ M.length = 2 + 1
      ∧ ∀ r ∈ M, r.length = 2 + 1 :=
  claim_C2_amended 2 [⟨20, 20, ⟨20,0,0,0,20,0,0,0,20⟩, []⟩] [[1, 2], [3, 4]]
    (by decide) (by simp) (by with_unfolding_all decide)
    (by with_unfolding_all decide)

end LipidDyn
